import Mathlib

/-!
Verification development for the Audio Echo Chamber repository
(browser audio editor in `src/App.tsx`): the WAV/MP3 sample codec,
the effect-graph parameterization, the history store, the export
(download) handler, and the playback state machine, shallowly
embedded in Lean.

Float samples are modelled as rationals (`ℚ`); the JavaScript
`DataView.setInt16` / `Int16Array` integer conversion (truncation
toward zero, then 16-bit two's-complement wrap) is made explicit.
-/

namespace AudioEchoChamber

/-- 16-bit two's-complement wrap applied by `DataView.setInt16` and by
`Int16Array` element assignment (ECMAScript ToInt16). -/
def toInt16 (z : ℤ) : ℤ :=
  (z + 32768) % 65536 - 32768

/-- ECMAScript ToIntegerOrInfinity on a finite value: truncation toward
zero (floor for non-negative values, ceiling for negative ones). -/
def truncQ (x : ℚ) : ℤ :=
  if 0 ≤ x then ⌊x⌋ else ⌈x⌉

/-- Sample conversion performed inline in the WAV writer loop
(`bufferToWav`, App.tsx lines 72-77):
`sample = Math.max(-1, Math.min(1, sample));`
`const intSample = sample < 0 ? sample * 32768 : sample * 32767;`
followed by `view.setInt16(offset, intSample, true)`. -/
def wavConvert (x : ℚ) : ℤ :=
  let sample := max (-1) (min 1 x)
  toInt16 (truncQ (if sample < 0 then sample * 32768 else sample * 32767))

/-- Per-sample body of `convertTo16Bit` in `bufferToMp3`
(App.tsx lines 96-103):
`const s = Math.max(-1, Math.min(1, float32Array[i]));`
`int16Array[i] = s < 0 ? s * 0x8000 : s * 0x7FFF;`
(0x8000 = 32768, 0x7FFF = 32767; `Int16Array` assignment wraps). -/
def convertSample16 (x : ℚ) : ℤ :=
  let s := max (-1) (min 1 x)
  toInt16 (truncQ (if s < 0 then s * 32768 else s * 32767))

/-- `convertTo16Bit` from `bufferToMp3`: maps a whole channel. -/
def convertTo16Bit (float32Array : List ℚ) : List ℤ :=
  float32Array.map convertSample16

/-- Spec-side description, first step: clamp to [-1, 1]. -/
def clampSample (x : ℚ) : ℚ :=
  max (-1) (min 1 x)

/-- Spec-side description, second step: asymmetric scaling
(×32768 for negative clamped values, ×32767 otherwise). -/
def scaleSample (s : ℚ) : ℚ :=
  if s < 0 then s * 32768 else s * 32767

/-! ## WAV container (`bufferToWav`, App.tsx lines 29-83) -/

/-- Little-endian bytes written by `DataView.setUint16`. -/
def u16le (n : ℕ) : List ℕ :=
  [n % 256, n / 256 % 256]

/-- Little-endian bytes written by `DataView.setUint32`. -/
def u32le (n : ℕ) : List ℕ :=
  [n % 256, n / 256 % 256, n / 65536 % 256, n / 16777216 % 256]

/-- Little-endian bytes written by `DataView.setInt16` for a value
already reduced to the int16 range (two's complement). -/
def i16le (z : ℤ) : List ℕ :=
  u16le (z % 65536).toNat

/-- Char codes written by `writeString(view, off, 'RIFF')`. -/
def riffMark : List ℕ := [82, 73, 70, 70]

/-- Char codes of 'WAVE'. -/
def waveMark : List ℕ := [87, 65, 86, 69]

/-- Char codes of 'fmt ' (with trailing space). -/
def fmtMark : List ℕ := [102, 109, 116, 32]

/-- Char codes of 'data'. -/
def dataMark : List ℕ := [100, 97, 116, 97]

/-- The Web Audio `AudioBuffer` as seen by the codec: channel count,
sample rate (Hz), frame count (`buffer.length`), and the per-channel
float sample arrays returned by `getChannelData`. -/
structure AudioBufferM where
  numberOfChannels : ℕ
  sampleRate : ℕ
  length : ℕ
  channelData : List (List ℚ)
deriving DecidableEq

/-- `buffer.getChannelData(i)`. -/
def getChannelData (b : AudioBufferM) (i : ℕ) : List ℚ :=
  b.channelData.getD i []

/-- `channels[j][i]` in the WAV writer's interleaving loop. -/
def wavSample (b : AudioBufferM) (j i : ℕ) : ℚ :=
  (getChannelData b j).getD i 0

/-- The PCM data section of the WAV file: frames in order, channels
interleaved within each frame, each sample as two little-endian bytes
(App.tsx lines 70-80). -/
def wavPcm (b : AudioBufferM) : List ℕ :=
  (List.range b.length).flatMap fun i =>
    (List.range b.numberOfChannels).flatMap fun j =>
      i16le (wavConvert (wavSample b j i))

/-- `bufferToWav` (App.tsx lines 29-83): 44-byte RIFF/WAVE PCM header
followed by the interleaved 16-bit sample data, as a byte list.
`bytesPerSample = 16 / 8 = 2` is inlined. -/
def bufferToWav (b : AudioBufferM) : List ℕ :=
  let numChannels := b.numberOfChannels
  let sampleRate := b.sampleRate
  let numSamples := b.length
  let dataSize := numSamples * numChannels * 2
  let fileSize := 44 + dataSize
  riffMark ++ u32le (fileSize - 8) ++ waveMark ++
    fmtMark ++ u32le 16 ++ u16le 1 ++ u16le numChannels ++ u32le sampleRate ++
    u32le (sampleRate * numChannels * 2) ++ u16le (numChannels * 2) ++ u16le 16 ++
    dataMark ++ u32le dataSize ++ wavPcm b

/-- Decode an unsigned little-endian 16-bit field at a byte offset. -/
def readU16 (l : List ℕ) (off : ℕ) : ℕ :=
  match l.drop off with
  | b0 :: b1 :: _ => b0 + 256 * b1
  | _ => 0

/-- Decode an unsigned little-endian 32-bit field at a byte offset. -/
def readU32 (l : List ℕ) (off : ℕ) : ℕ :=
  readU16 l off + 65536 * readU16 l (off + 2)

/-! ## MP3 encoding (`bufferToMp3`, App.tsx lines 86-124)

The lamejs encoder itself is an external CDN library; it is abstracted
as a state machine with an `encodeBuffer` step and a `flush` step. The
chunking, ordering and concatenation logic around it is the
repository's own code and is embedded faithfully. -/

/-- Abstract interface of `lamejs.Mp3Encoder`. -/
structure Mp3Encoder (σ : Type) where
  encodeBuffer : σ → List ℤ → List ℤ → σ × List ℕ
  flush : σ → List ℕ

/-- The encoder feed loop
`for (let i = 0; i < samplesLeft.length; i += bufferSize)` with
`bufferSize = 1152`, taking `subarray(i, i + 1152)` of each channel and
collecting every non-empty encoder output in emission order
(App.tsx lines 108-116). -/
def mp3Go {σ : Type} (enc : Mp3Encoder σ) (left right : List ℤ) (i : ℕ) (s : σ) :
    σ × List (List ℕ) :=
  if h : i < left.length then
    let p := enc.encodeBuffer s ((left.drop i).take 1152) ((right.drop i).take 1152)
    let q := mp3Go enc left right (i + 1152) p.1
    (q.1, (if p.2 = [] then [] else [p.2]) ++ q.2)
  else
    (s, [])
termination_by left.length - i
decreasing_by omega

/-- `const pcmLeft = buffer.getChannelData(0)`. -/
def pcmLeft (b : AudioBufferM) : List ℚ :=
  getChannelData b 0

/-- `const pcmRight = numChannels > 1 ? buffer.getChannelData(1) : pcmLeft`. -/
def pcmRight (b : AudioBufferM) : List ℚ :=
  if b.numberOfChannels > 1 then getChannelData b 1 else getChannelData b 0

/-- `const samplesLeft = convertTo16Bit(pcmLeft)`. -/
def samplesLeft (b : AudioBufferM) : List ℤ :=
  convertTo16Bit (pcmLeft b)

/-- `const samplesRight = convertTo16Bit(pcmRight)`. -/
def samplesRight (b : AudioBufferM) : List ℤ :=
  convertTo16Bit (pcmRight b)

/-- `bufferToMp3` up to the final Blob: the list `mp3Data` of emitted
parts — the per-chunk outputs, then the flush output if non-empty
(App.tsx lines 108-121). -/
def bufferToMp3Chunks {σ : Type} (enc : Mp3Encoder σ) (s0 : σ) (b : AudioBufferM) :
    List (List ℕ) :=
  let r := mp3Go enc (samplesLeft b) (samplesRight b) 0 s0
  let fl := enc.flush r.1
  r.2 ++ (if fl = [] then [] else [fl])

/-- The final MP3 payload: `new Blob(mp3Data)` concatenates the parts. -/
def bufferToMp3 {σ : Type} (enc : Mp3Encoder σ) (s0 : σ) (b : AudioBufferM) : List ℕ :=
  (bufferToMp3Chunks enc s0 b).flatten

/-- Spec-side: split a sample list into successive chunks of (at most)
1152 samples, in input order. -/
def chunks1152 (l : List ℤ) : List (List ℤ) :=
  if h : l = [] then [] else l.take 1152 :: chunks1152 (l.drop 1152)
termination_by l.length
decreasing_by
  simp only [List.length_drop]
  have : 0 < l.length := List.length_pos.mpr h
  omega

/-- Spec-side: run the encoder over a list of (left, right) chunk
pairs, keeping each non-empty output in emission order. -/
def chunkFold {σ : Type} (enc : Mp3Encoder σ) (s : σ) :
    List (List ℤ × List ℤ) → σ × List (List ℕ)
  | [] => (s, [])
  | c :: rest =>
    let p := enc.encodeBuffer s c.1 c.2
    let q := chunkFold enc p.1 rest
    (q.1, (if p.2 = [] then [] else [p.2]) ++ q.2)

/-- Spec-side restatement of the MP3 assembly: encode the zipped
1152-sample chunk lists in order, then append the flush output if it
is non-empty. -/
def mp3Spec {σ : Type} (enc : Mp3Encoder σ) (s0 : σ) (left right : List ℤ) :
    List (List ℕ) :=
  let r := chunkFold enc s0 ((chunks1152 left).zip (chunks1152 right))
  let fl := enc.flush r.1
  r.2 ++ (if fl = [] then [] else [fl])

/-! ## Effect parameters and graph nodes -/

/-- The five user-controlled effect parameters (React state,
App.tsx lines 143-147). -/
structure EffectParams where
  delayTime : ℚ
  feedback : ℚ
  isClarityOn : Bool
  voiceBoost : ℚ
  clarity : ℚ
deriving DecidableEq

/-- Biquad filter type strings used by the app. -/
inductive FilterKind where
  | allpass
  | lowpass
  | peaking
deriving DecidableEq

/-- A `BiquadFilterNode` configuration (type, frequency, Q, gain). -/
structure FilterConfig where
  kind : FilterKind
  frequency : ℚ
  q : ℚ
  gain : ℚ
deriving DecidableEq

/-- Web Audio platform defaults for a freshly created biquad filter:
frequency 350 Hz, Q 1, gain 0. The live setup and the offline render's
else-branch set only `type = 'allpass'` and leave the rest at these
defaults. -/
def initialNoiseFilter : FilterConfig :=
  { kind := FilterKind.allpass, frequency := 350, q := 1, gain := 0 }

/-- An HTML `<input type="range">` with the given `min`/`max` keeps its
value inside the declared interval; the `Slider` component passes the
bounds through (components/Slider.tsx). -/
def sliderInput (mn mx v : ℚ) : ℚ :=
  max mn (min mx v)

/-- Parameter-carrying nodes of the effect graph (same shape for the
live graph of `setupAudioContext` and the offline graph of
`handleDownload`). -/
structure GraphNodes where
  delayTimeValue : ℚ
  feedbackGainValue : ℚ
  boostGainValue : ℚ
  noiseConfig : FilterConfig
  clarityConfig : FilterConfig
deriving DecidableEq

/-- Offline graph construction in `handleDownload`
(App.tsx lines 356-391): parameter values are assigned to the nodes
directly, with no transformation; the noise filter is `lowpass`
5000 Hz / Q 1 when noise reduction is on, plain `allpass` otherwise. -/
def setupOfflineGraph (p : EffectParams) : GraphNodes :=
  { delayTimeValue := p.delayTime,
    feedbackGainValue := p.feedback,
    boostGainValue := p.voiceBoost,
    noiseConfig :=
      if p.isClarityOn then { kind := FilterKind.lowpass, frequency := 5000, q := 1, gain := 0 }
      else initialNoiseFilter,
    clarityConfig := { kind := FilterKind.peaking, frequency := 3500, q := 3/2, gain := p.clarity } }

/-- Live graph construction in `setupAudioContext`
(App.tsx lines 176-201): initial values from current parameters; the
noise filter always starts as `allpass`. -/
def setupLiveGraph (p : EffectParams) : GraphNodes :=
  { delayTimeValue := p.delayTime,
    feedbackGainValue := p.feedback,
    boostGainValue := p.voiceBoost,
    noiseConfig := initialNoiseFilter,
    clarityConfig := { kind := FilterKind.peaking, frequency := 3500, q := 3/2, gain := p.clarity } }

/-- Live update of the delay time (`useEffect` on `delayTime`,
App.tsx lines 522-526): the value is pushed unchanged. -/
def setDelayTimeLive (v : ℚ) (g : GraphNodes) : GraphNodes :=
  { g with delayTimeValue := v }

/-- Live update of the feedback gain (`useEffect` on `feedback`,
App.tsx lines 528-532): the value is pushed unchanged. -/
def setFeedbackLive (v : ℚ) (g : GraphNodes) : GraphNodes :=
  { g with feedbackGainValue := v }

/-- Live noise-reduction toggle (`useEffect` on `isClarityOn`,
App.tsx lines 534-544): on enables `lowpass` 5000 Hz / Q 1; off sets
only `type = 'allpass'`, leaving frequency and Q in place. -/
def applyClarityToggle (enabled : Bool) (c : FilterConfig) : FilterConfig :=
  if enabled then { kind := FilterKind.lowpass, frequency := 5000, q := 1, gain := c.gain }
  else { c with kind := FilterKind.allpass }

/-- Modelled from the spec: the biquad filter engine itself is the host
platform's (not in this repository). The spec defines the noise
filter's "allpass" mode as "pass-through, no shaping"; the "lowpass"
and "peaking" modes are abstracted as function parameters. -/
def applyNoiseFilter (lowpassSem peakingSem : ℚ → ℚ → ℚ → List ℚ → List ℚ)
    (c : FilterConfig) (buf : List ℚ) : List ℚ :=
  match c.kind with
  | FilterKind.allpass => buf
  | FilterKind.lowpass => lowpassSem c.frequency c.q c.gain buf
  | FilterKind.peaking => peakingSem c.frequency c.q c.gain buf

/-! ## History store and the export handler (`handleDownload`) -/

/-- `HistoryItem` (App.tsx lines 11-18); the two blobs as byte lists,
`timestamp` as an integer clock reading. -/
structure HistoryItem where
  id : ℕ
  fileName : String
  timestamp : ℕ
  audioBuffer : AudioBufferM
  wavBlob : List ℕ
  mp3Blob : List ℕ
deriving DecidableEq

/-- `setHistory(prev => [newHistoryItem, ...prev].slice(0, 10))`
(App.tsx line 407). -/
def insertHistory (x : HistoryItem) (h : List HistoryItem) : List HistoryItem :=
  (x :: h).take 10

/-- The two export formats. -/
inductive RenderFormat where
  | wav
  | mp3
deriving DecidableEq

/-- The application state touched by `handleDownload`. -/
structure AppState where
  audioBuffer : Option AudioBufferM
  fileName : String
  history : List HistoryItem
  renderingFormat : Option RenderFormat
deriving DecidableEq

/-- `handleDownload` (App.tsx lines 342-428). The offline render is an
asynchronous host-engine call that may fail, modelled as an
`Except`-valued argument; the lamejs MP3 encoding may likewise throw,
modelled as an `Except`-valued function; `now` is the `Date.now()`
clock reading. The `try`/`catch` keeps all failures inside the
handler: the catch branch only alerts, and the `finally` branch resets
`renderingFormat`. The WAV/MP3 anchor-click download is a side effect
outside the state. -/
def handleDownload (format : RenderFormat) (render : Except String AudioBufferM)
    (mp3Of : AudioBufferM → Except String (List ℕ)) (now : ℕ) (st : AppState) : AppState :=
  match st.audioBuffer with
  | none => st
  | some _ =>
    match render with
    | Except.error _ => { st with renderingFormat := none }
    | Except.ok renderedBuffer =>
      let wavBlob := bufferToWav renderedBuffer
      match mp3Of renderedBuffer with
      | Except.error _ => { st with renderingFormat := none }
      | Except.ok mp3Blob =>
        let base := (String.splitOn st.fileName (".")).headD ("")
        let newHistoryItem : HistoryItem :=
          { id := now,
            fileName := if base = ("") then ("recording") else base,
            timestamp := now,
            audioBuffer := renderedBuffer,
            wavBlob := wavBlob,
            mp3Blob := mp3Blob }
        { st with history := insertHistory newHistoryItem st.history,
                  renderingFormat := none }

/-- A session of successive exports: one `handleDownload` per clock
reading in `times`, each offline render succeeding with buffer `b` and
the MP3 encoding succeeding with payload `mp3`. -/
def runExports (b : AudioBufferM) (mp3 : List ℕ) (times : List ℕ) (st : AppState) : AppState :=
  times.foldl (fun s t => handleDownload RenderFormat.wav (Except.ok b) (fun _ => Except.ok mp3) t s) st

/-! ## Playback mutual exclusion -/

/-- The two preview kinds of `togglePreviewPlayback`. -/
inductive PreviewKind where
  | before
  | after
deriving DecidableEq

/-- Which playback sources are currently active
(`isPlayingOriginal`, `isPlayingProcessed`, `playingHistoryId`,
`playingPreview`, App.tsx lines 131-139). -/
structure PlaybackState where
  isPlayingOriginal : Bool
  isPlayingProcessed : Bool
  playingHistoryId : Option ℕ
  playingPreview : Option PreviewKind
deriving DecidableEq

/-- Initial state: nothing is playing. -/
def initialPlayback : PlaybackState :=
  { isPlayingOriginal := false, isPlayingProcessed := false,
    playingHistoryId := none, playingPreview := none }

/-- `stopAllPlayback` (App.tsx lines 205-215): stops every source and
clears all four playback flags. -/
def stopAllPlayback (_s : PlaybackState) : PlaybackState :=
  initialPlayback

/-- User actions that affect playback. The `ready` flags model the
early-return guards (`!context || !audioBuffer`, and for the 'after'
preview also `!processedVisBuffer`). `stopAll` covers `loadFile`,
`startRecording` and `handleHistoryLoad`, which call
`stopAllPlayback()` directly. -/
inductive PlaybackEvent where
  | toggleOriginal (ready : Bool)
  | toggleProcessed (ready : Bool)
  | togglePreview (k : PreviewKind) (ready : Bool)
  | historyPlay (id : ℕ) (ctxReady : Bool)
  | stopAll
deriving DecidableEq

/-- One step of the playback state machine, following the four toggle
handlers (App.tsx lines 266-340 and 481-502). A stop of a single
source is modelled together with its `onended` flag reset. In
`handleHistoryPlay` the `playingHistoryId === item.id` branch runs
before the context check, and `stopAllPlayback()` runs before the
context check in the else branch. -/
def playbackStep (e : PlaybackEvent) (s : PlaybackState) : PlaybackState :=
  match e with
  | PlaybackEvent.toggleOriginal ready =>
    if ¬ready then s
    else if s.isPlayingOriginal then { s with isPlayingOriginal := false }
    else { stopAllPlayback s with isPlayingOriginal := true }
  | PlaybackEvent.toggleProcessed ready =>
    if ¬ready then s
    else if s.isPlayingProcessed then { s with isPlayingProcessed := false }
    else { stopAllPlayback s with isPlayingProcessed := true }
  | PlaybackEvent.togglePreview k ready =>
    if ¬ready then s
    else if s.playingPreview = some k then { s with playingPreview := none }
    else { stopAllPlayback s with playingPreview := some k }
  | PlaybackEvent.historyPlay id ctxReady =>
    if s.playingHistoryId = some id then { s with playingHistoryId := none }
    else if ¬ctxReady then stopAllPlayback s
    else { stopAllPlayback s with playingHistoryId := some id }
  | PlaybackEvent.stopAll => stopAllPlayback s

/-- Number of simultaneously active playback sources. -/
def activeCount (s : PlaybackState) : ℕ :=
  (if s.isPlayingOriginal then 1 else 0) + (if s.isPlayingProcessed then 1 else 0) +
    (if s.playingHistoryId.isSome then 1 else 0) + (if s.playingPreview.isSome then 1 else 0)

/-- States reachable from the initial state by user actions. -/
inductive ReachablePlayback : PlaybackState → Prop where
  | init : ReachablePlayback initialPlayback
  | step (e : PlaybackEvent) {s : PlaybackState} :
      ReachablePlayback s → ReachablePlayback (playbackStep e s)

/-! ## Concrete fixtures used by witnesses and counterexamples -/

/-- A tiny mono buffer (1 channel, 8 Hz, 2 frames). -/
def exBuf : AudioBufferM :=
  { numberOfChannels := 1, sampleRate := 8, length := 2, channelData := [[0, 1]] }

/-- A stereo all-zero buffer with the spec's example dimensions
(2 channels, 44100 Hz, 1000 frames). -/
def exWav2 : AudioBufferM :=
  { numberOfChannels := 2, sampleRate := 44100, length := 1000,
    channelData := [List.replicate 1000 0, List.replicate 1000 0] }

/-- A history item with a given id. -/
def exItem (n : ℕ) : HistoryItem :=
  { id := n, fileName := "a", timestamp := 0, audioBuffer := exBuf, wavBlob := [], mp3Blob := [] }

/-- A toy MP3 encoder: the state counts calls, each chunk emits one
byte recording the call index, flush emits a tail marker. -/
def exEncoder : Mp3Encoder ℕ :=
  { encodeBuffer := fun s _ _ => (s + 1, [s]), flush := fun s => [s, 99] }

/-- Initial app state with a loaded buffer and empty history. -/
def initState (b : AudioBufferM) : AppState :=
  { audioBuffer := some b, fileName := "a.wav", history := [], renderingFormat := none }

/-- Two successful exports completing within the same millisecond:
`Date.now()` returns 1000 both times. -/
def c9TwoExports : AppState :=
  handleDownload RenderFormat.wav (Except.ok exBuf) (fun _ => Except.ok []) 1000
    (handleDownload RenderFormat.wav (Except.ok exBuf) (fun _ => Except.ok []) 1000
      (initState exBuf))

lemma clampSample_mem (x : ℚ) : -1 ≤ clampSample x ∧ clampSample x ≤ 1 := by
  unfold clampSample
  constructor
  · exact le_max_left _ _
  · exact max_le (by norm_num) (min_le_left _ _)

lemma truncQ_le_of_le {x : ℚ} {n : ℤ} (h : x ≤ (n : ℚ)) : truncQ x ≤ n := by
  unfold truncQ
  split
  · exact le_trans (Int.floor_mono h) (le_of_eq (Int.floor_intCast n))
  · exact Int.ceil_le.mpr h

lemma le_truncQ_of_le {x : ℚ} {n : ℤ} (h : (n : ℚ) ≤ x) : n ≤ truncQ x := by
  unfold truncQ
  split
  · exact Int.le_floor.mpr h
  · exact le_trans (le_of_eq (Int.ceil_intCast n).symm) (Int.ceil_mono h)

lemma scale_trunc_bounds {s : ℚ} (h1 : -1 ≤ s) (h2 : s ≤ 1) :
    -32768 ≤ truncQ (scaleSample s) ∧ truncQ (scaleSample s) ≤ 32767 := by
  unfold scaleSample
  by_cases hs : s < 0
  · rw [if_pos hs]
    constructor
    · refine le_truncQ_of_le ?_
      have := mul_le_mul_of_nonneg_right h1 (by norm_num : (0:ℚ) ≤ 32768)
      push_cast
      linarith
    · refine truncQ_le_of_le ?_
      have := mul_le_mul_of_nonneg_right (le_of_lt hs) (by norm_num : (0:ℚ) ≤ 32768)
      push_cast
      linarith
  · rw [if_neg hs]
    push_neg at hs
    constructor
    · refine le_truncQ_of_le ?_
      have := mul_le_mul_of_nonneg_right hs (by norm_num : (0:ℚ) ≤ 32767)
      push_cast
      linarith
    · refine truncQ_le_of_le ?_
      have := mul_le_mul_of_nonneg_right h2 (by norm_num : (0:ℚ) ≤ 32767)
      push_cast
      linarith

lemma toInt16_eq_self {z : ℤ} (h1 : -32768 ≤ z) (h2 : z ≤ 32767) : toInt16 z = z := by
  unfold toInt16
  omega

lemma wavConvert_eq_trunc_scale_clamp (x : ℚ) :
    wavConvert x = truncQ (scaleSample (clampSample x)) := by
  have hm := clampSample_mem x
  have hb := scale_trunc_bounds hm.1 hm.2
  unfold wavConvert
  show toInt16 (truncQ (if clampSample x < 0 then clampSample x * 32768
      else clampSample x * 32767)) = truncQ (scaleSample (clampSample x))
  unfold scaleSample
  unfold scaleSample at hb
  exact toInt16_eq_self hb.1 hb.2

lemma wavConvert_of_one_le {x : ℚ} (h : 1 ≤ x) : wavConvert x = 32767 := by
  rw [wavConvert_eq_trunc_scale_clamp]
  have hc : clampSample x = 1 := by
    unfold clampSample
    rw [min_eq_left h]
    exact max_eq_right (by norm_num)
  rw [hc]
  unfold scaleSample truncQ
  norm_num

lemma wavConvert_of_le_neg_one {x : ℚ} (h : x ≤ -1) : wavConvert x = -32768 := by
  rw [wavConvert_eq_trunc_scale_clamp]
  have hc : clampSample x = -1 := by
    unfold clampSample
    rw [min_eq_right (by linarith : x ≤ 1)]
    exact max_eq_left h
  rw [hc]
  unfold scaleSample truncQ
  norm_num
  rw [show ((-32768 : ℚ)) = ((-32768 : ℤ) : ℚ) by norm_num, Int.ceil_intCast]

lemma wavConvert_zero : wavConvert 0 = 0 := by
  rw [wavConvert_eq_trunc_scale_clamp]
  have hc : clampSample 0 = 0 := by
    unfold clampSample
    norm_num
  rw [hc]
  unfold scaleSample truncQ
  norm_num

lemma i16le_length (z : ℤ) : (i16le z).length = 2 := rfl

lemma flatMap_const_length {α : Type} (c : ℕ) (f : α → List ℕ)
    (hf : ∀ a, (f a).length = c) : ∀ l : List α, (l.flatMap f).length = l.length * c := by
  intro l
  induction l with
  | nil => simp
  | cons a t ih =>
    rw [List.flatMap_cons, List.length_append, hf, ih, List.length_cons]
    ring

lemma wavPcm_length (b : AudioBufferM) :
    (wavPcm b).length = b.length * b.numberOfChannels * 2 := by
  unfold wavPcm
  rw [flatMap_const_length (b.numberOfChannels * 2) _
    (fun i => by
      rw [flatMap_const_length 2 _ (fun j => i16le_length _) (List.range b.numberOfChannels)]
      rw [List.length_range])]
  rw [List.length_range, Nat.mul_assoc]

set_option maxHeartbeats 1600000 in
/-- C2: for every PCM buffer the WAV encoder produces one contiguous
byte buffer of exactly 44 + frames×channels×2 bytes: RIFF/WAVE
markers, a fmt chunk with PCM tag 1, the channel count, the sample
rate, byte rate = rate×channels×2, block align = channels×2,
bits-per-sample 16, a data chunk sized frames×channels×2, then the
interleaved little-endian 16-bit samples. -/
theorem bufferToWav_header_exact (b : AudioBufferM)
    (hC : b.numberOfChannels * 2 < 65536)
    (hR : b.sampleRate < 4294967296)
    (hBR : b.sampleRate * b.numberOfChannels * 2 < 4294967296)
    (hD : b.length * b.numberOfChannels * 2 < 4294967296) :
    (bufferToWav b).length = 44 + b.length * b.numberOfChannels * 2 ∧
    (bufferToWav b).take 4 = riffMark ∧
    ((bufferToWav b).drop 8).take 4 = waveMark ∧
    ((bufferToWav b).drop 12).take 4 = fmtMark ∧
    readU16 (bufferToWav b) 20 = 1 ∧
    readU16 (bufferToWav b) 22 = b.numberOfChannels ∧
    readU32 (bufferToWav b) 24 = b.sampleRate ∧
    readU32 (bufferToWav b) 28 = b.sampleRate * b.numberOfChannels * 2 ∧
    readU16 (bufferToWav b) 32 = b.numberOfChannels * 2 ∧
    readU16 (bufferToWav b) 34 = 16 ∧
    ((bufferToWav b).drop 36).take 4 = dataMark ∧
    readU32 (bufferToWav b) 40 = b.length * b.numberOfChannels * 2 ∧
    (bufferToWav b).drop 44 = wavPcm b := by
  refine ⟨?_, rfl, rfl, rfl, rfl, ?_, ?_, ?_, ?_, rfl, rfl, ?_, rfl⟩
  · have h : (bufferToWav b).length = (wavPcm b).length + 44 := rfl
    rw [h, wavPcm_length]
    omega
  · have h : readU16 (bufferToWav b) 22 =
        b.numberOfChannels % 256 + 256 * (b.numberOfChannels / 256 % 256) := rfl
    rw [h]
    omega
  · have h : readU32 (bufferToWav b) 24 =
        b.sampleRate % 256 + 256 * (b.sampleRate / 256 % 256) +
          65536 * (b.sampleRate / 65536 % 256 + 256 * (b.sampleRate / 16777216 % 256)) := rfl
    rw [h]
    omega
  · have h : readU32 (bufferToWav b) 28 =
        b.sampleRate * b.numberOfChannels * 2 % 256 +
          256 * (b.sampleRate * b.numberOfChannels * 2 / 256 % 256) +
          65536 * (b.sampleRate * b.numberOfChannels * 2 / 65536 % 256 +
            256 * (b.sampleRate * b.numberOfChannels * 2 / 16777216 % 256)) := rfl
    rw [h]
    omega
  · have h : readU16 (bufferToWav b) 32 =
        b.numberOfChannels * 2 % 256 + 256 * (b.numberOfChannels * 2 / 256 % 256) := rfl
    rw [h]
    omega
  · have h : readU32 (bufferToWav b) 40 =
        b.length * b.numberOfChannels * 2 % 256 +
          256 * (b.length * b.numberOfChannels * 2 / 256 % 256) +
          65536 * (b.length * b.numberOfChannels * 2 / 65536 % 256 +
            256 * (b.length * b.numberOfChannels * 2 / 16777216 % 256)) := rfl
    rw [h]
    omega

/-- C2 witness: the spec's example — 2 channels, 44100 Hz, 1000 frames
gives byte length 4044, byte-rate field 176400, data-size field 4000. -/
theorem bufferToWav_header_exact_witness :
    (bufferToWav exWav2).length = 4044 ∧
    readU32 (bufferToWav exWav2) 28 = 176400 ∧
    readU32 (bufferToWav exWav2) 40 = 4000 := by
  have h := bufferToWav_header_exact exWav2 (by decide) (by decide) (by decide) (by decide)
  obtain ⟨h1, -, -, -, -, -, h7, h8, -, -, -, h12, -⟩ := h
  refine ⟨?_, ?_, ?_⟩
  · rw [h1]; decide
  · rw [h8]; decide
  · rw [h12]; decide

/-- C1: the codec's 16-bit conversion (used identically for WAV and MP3)
first clamps each float sample to [-1, 1], then scales asymmetrically
(×32768 if the clamped value is negative, ×32767 otherwise); in
particular 1.5 ↦ 32767, -1.5 ↦ -32768, 1.0 ↦ 32767, -1.0 ↦ -32768,
0.0 ↦ 0. -/
theorem wavConvert_clamps_then_scales :
    (∀ x : ℚ, wavConvert x = truncQ (scaleSample (clampSample x))) ∧
    (∀ x : ℚ, convertSample16 x = wavConvert x) ∧
    wavConvert (3/2) = 32767 ∧ wavConvert (-(3/2)) = -32768 ∧
    wavConvert 1 = 32767 ∧ wavConvert (-1) = -32768 ∧ wavConvert 0 = 0 :=
  ⟨wavConvert_eq_trunc_scale_clamp, fun _ => rfl,
   wavConvert_of_one_le (by norm_num), wavConvert_of_le_neg_one (by norm_num),
   wavConvert_of_one_le (by norm_num), wavConvert_of_le_neg_one (by norm_num),
   wavConvert_zero⟩

/-- C7: the MP3 encoder's float-to-16-bit conversion produces exactly
the same integers as the WAV encoder's (same clamp, same asymmetric
scaling), and a mono buffer's single converted channel is supplied
identically as both encoder inputs. -/
theorem mp3_wav_conversion_agree :
    (∀ x : ℚ, convertSample16 x = wavConvert x) ∧
    (∀ b : AudioBufferM, samplesLeft b = (pcmLeft b).map wavConvert) ∧
    (∀ b : AudioBufferM, b.numberOfChannels = 1 → samplesRight b = samplesLeft b) := by
  refine ⟨fun _ => rfl, fun _ => rfl, fun b hb => ?_⟩
  simp [samplesRight, samplesLeft, pcmRight, pcmLeft, hb]

/-- C7 witness: the mono fixture buffer feeds its one channel to both
encoder inputs. -/
theorem mp3_wav_conversion_agree_witness :
    exBuf.numberOfChannels = 1 ∧ samplesRight exBuf = samplesLeft exBuf :=
  ⟨rfl, mp3_wav_conversion_agree.2.2 exBuf rfl⟩

lemma chunks1152_cons {l : List ℤ} (h : l ≠ []) :
    chunks1152 l = l.take 1152 :: chunks1152 (l.drop 1152) := by
  rw [chunks1152, dif_neg h]

lemma chunks1152_nil : chunks1152 [] = [] := by
  rw [chunks1152]
  simp

lemma chunks1152_flatten_bounded :
    ∀ (n : ℕ) (l : List ℤ), l.length ≤ n → (chunks1152 l).flatten = l := by
  intro n
  induction n with
  | zero =>
    intro l hl
    have h : l = [] := List.length_eq_zero.mp (by omega)
    rw [h, chunks1152_nil]
    rfl
  | succ n ih =>
    intro l hl
    by_cases h : l = []
    · rw [h, chunks1152_nil]
      rfl
    · rw [chunks1152_cons h, List.flatten_cons]
      have hpos : 0 < l.length := List.length_pos.mpr h
      rw [ih (l.drop 1152) (by rw [List.length_drop]; omega)]
      exact List.take_append_drop 1152 l

lemma chunks1152_flatten (l : List ℤ) : (chunks1152 l).flatten = l :=
  chunks1152_flatten_bounded l.length l le_rfl

lemma mp3Go_eq_chunkFold {σ : Type} (enc : Mp3Encoder σ) :
    ∀ (n : ℕ) (left right : List ℤ) (i : ℕ) (s : σ), left.length - i ≤ n →
      right.length = left.length →
      mp3Go enc left right i s =
        chunkFold enc s ((chunks1152 (left.drop i)).zip (chunks1152 (right.drop i))) := by
  intro n
  induction n with
  | zero =>
    intro left right i s hn hlen
    have hi : ¬i < left.length := by omega
    rw [mp3Go, dif_neg hi]
    rw [List.drop_eq_nil_of_le (by omega : left.length ≤ i)]
    rw [List.drop_eq_nil_of_le (by omega : right.length ≤ i)]
    rw [chunks1152_nil]
    rfl
  | succ n ih =>
    intro left right i s hn hlen
    by_cases hi : i < left.length
    · have h1 : left.drop i ≠ [] := by
        intro hc
        have := congrArg List.length hc
        rw [List.length_drop] at this
        simp at this
        omega
      have h2 : right.drop i ≠ [] := by
        intro hc
        have := congrArg List.length hc
        rw [List.length_drop] at this
        simp at this
        omega
      rw [mp3Go, dif_pos hi, chunks1152_cons h1, chunks1152_cons h2, List.zip_cons_cons]
      have hd1 : (left.drop i).drop 1152 = left.drop (i + 1152) := by
        rw [List.drop_drop, Nat.add_comm]
      have hd2 : (right.drop i).drop 1152 = right.drop (i + 1152) := by
        rw [List.drop_drop, Nat.add_comm]
      rw [hd1, hd2]
      dsimp only
      rw [ih left right (i + 1152) _ (by omega) hlen]
      rfl
    · rw [mp3Go, dif_neg hi]
      rw [List.drop_eq_nil_of_le (by omega : left.length ≤ i)]
      rw [List.drop_eq_nil_of_le (by omega : right.length ≤ i)]
      rw [chunks1152_nil]
      rfl

/-- C8: the MP3 encoder is fed the converted samples in 1152-sample
chunks per channel in input order, every non-empty output is appended
in emission order, the encoder is flushed after all input and any
final output appended, and the payload is the in-order concatenation
of all emitted parts. The chunk lists partition the converted input in
order. -/
theorem bufferToMp3_chunking {σ : Type} (enc : Mp3Encoder σ) (s0 : σ) (b : AudioBufferM)
    (hlen : (samplesRight b).length = (samplesLeft b).length) :
    bufferToMp3Chunks enc s0 b = mp3Spec enc s0 (samplesLeft b) (samplesRight b) ∧
    bufferToMp3 enc s0 b = (mp3Spec enc s0 (samplesLeft b) (samplesRight b)).flatten ∧
    (chunks1152 (samplesLeft b)).flatten = samplesLeft b ∧
    (chunks1152 (samplesRight b)).flatten = samplesRight b := by
  have key := mp3Go_eq_chunkFold enc (samplesLeft b).length (samplesLeft b) (samplesRight b)
    0 s0 (by omega) hlen
  simp only [List.drop_zero] at key
  have hmain : bufferToMp3Chunks enc s0 b = mp3Spec enc s0 (samplesLeft b) (samplesRight b) := by
    unfold bufferToMp3Chunks mp3Spec
    rw [key]
  refine ⟨hmain, ?_, chunks1152_flatten _, chunks1152_flatten _⟩
  unfold bufferToMp3
  rw [hmain]

/-- C8 witness: the chunking theorem applied to the mono fixture
buffer and the toy encoder. -/
theorem bufferToMp3_chunking_witness :
    bufferToMp3Chunks exEncoder 0 exBuf =
      mp3Spec exEncoder 0 (samplesLeft exBuf) (samplesRight exBuf) :=
  (bufferToMp3_chunking exEncoder 0 exBuf rfl).1

lemma foldl_insert_length_le :
    ∀ (xs : List HistoryItem) (acc : List HistoryItem), acc.length ≤ 10 →
      (xs.foldl (fun h x => insertHistory x h) acc).length ≤ 10 := by
  intro xs
  induction xs with
  | nil =>
    intro acc hacc
    simpa using hacc
  | cons a t ih =>
    intro acc hacc
    rw [List.foldl_cons]
    refine ih _ ?_
    simp only [insertHistory, List.length_take]
    omega

/-- C4: the history store holds at most 10 entries, insertion places
the new result at the front, inserting into a full store of 10 evicts
exactly the oldest entry, every surviving entry keeps its value and
relative order (the model is pure, so no stored entry is ever
mutated), and any session of insertions starting from the empty store
stays within the cap. -/
theorem insertHistory_cap_and_eviction :
    (∀ (x : HistoryItem) (h : List HistoryItem), (insertHistory x h).length ≤ 10) ∧
    (∀ (x : HistoryItem) (h : List HistoryItem), (insertHistory x h).head? = some x) ∧
    (∀ (x : HistoryItem) (h : List HistoryItem), h.length = 10 →
      insertHistory x h = x :: h.dropLast) ∧
    (∀ (x : HistoryItem) (h : List HistoryItem) (i : ℕ), i < 9 →
      (insertHistory x h)[i + 1]? = h[i]?) ∧
    (∀ (x y : HistoryItem) (h : List HistoryItem),
      y ∈ insertHistory x h → y = x ∨ y ∈ h) ∧
    (∀ xs : List HistoryItem, (xs.foldl (fun h x => insertHistory x h) []).length ≤ 10) := by
  refine ⟨?_, ?_, ?_, ?_, ?_, fun xs => foldl_insert_length_le xs [] (by simp)⟩
  · intro x h
    simp only [insertHistory, List.length_take]
    omega
  · intro x h
    rfl
  · intro x h hlen
    have h10 : insertHistory x h = x :: h.take 9 := rfl
    rw [h10, List.dropLast_eq_take, hlen]
  · intro x h i hi
    simp only [insertHistory, List.getElem?_take, if_pos (by omega : i + 1 < 10),
      List.getElem?_cons_succ]
  · intro x y h hy
    have hmem : y ∈ x :: h := (List.take_sublist 10 (x :: h)).subset hy
    simpa [List.mem_cons] using hmem

/-- C4 witness: inserting an 11th item into a full store of 10 keeps
the new head and drops exactly the last entry. -/
theorem insertHistory_cap_and_eviction_witness :
    ((List.range 10).map exItem).length = 10 ∧
    insertHistory (exItem 10) ((List.range 10).map exItem) =
      exItem 10 :: ((List.range 10).map exItem).dropLast :=
  ⟨rfl, insertHistory_cap_and_eviction.2.2.1 _ _ rfl⟩

lemma handleDownload_audioBuffer (format : RenderFormat) (render : Except String AudioBufferM)
    (mp3Of : AudioBufferM → Except String (List ℕ)) (now : ℕ) (st : AppState) :
    (handleDownload format render mp3Of now st).audioBuffer = st.audioBuffer := by
  unfold handleDownload
  repeat' split
  all_goals rfl

/-- C5: if an export attempt fails during the offline render or the
MP3 encoding, the current audio buffer and the history store are left
exactly as they were: no partial render result is stored, and the
handler returns a state rather than propagating the error (and the
audio buffer is untouched on every path). -/
theorem handleDownload_failure_preserves_state (format : RenderFormat)
    (render : Except String AudioBufferM) (mp3Of : AudioBufferM → Except String (List ℕ))
    (now : ℕ) (st : AppState)
    (h : (∃ e, render = Except.error e) ∨
      ∃ bb e, render = Except.ok bb ∧ mp3Of bb = Except.error e) :
    (handleDownload format render mp3Of now st).history = st.history ∧
    (handleDownload format render mp3Of now st).audioBuffer = st.audioBuffer ∧
    ∀ r : Except String AudioBufferM,
      (handleDownload format r mp3Of now st).audioBuffer = st.audioBuffer := by
  refine ⟨?_, handleDownload_audioBuffer format render mp3Of now st,
    fun r => handleDownload_audioBuffer format r mp3Of now st⟩
  rcases h with ⟨e, he⟩ | ⟨bb, e, hok, herr⟩
  · subst he
    cases hst : st.audioBuffer <;> simp [handleDownload, hst]
  · subst hok
    cases hst : st.audioBuffer <;> simp [handleDownload, hst, herr]

/-- C5 witness: a failing offline render leaves the history of a
loaded session unchanged. -/
theorem handleDownload_failure_witness :
    (handleDownload RenderFormat.wav (Except.error ("render failed")) (fun _ => Except.ok [])
      5 (initState exBuf)).history = (initState exBuf).history :=
  (handleDownload_failure_preserves_state RenderFormat.wav (Except.error ("render failed"))
    (fun _ => Except.ok []) 5 (initState exBuf) (Or.inl ⟨_, rfl⟩)).1

/-- C9 counterexample: two successful exports in the same millisecond
(`Date.now()` = 1000 for both) store two render results with the same
id, so ids are neither unique nor strictly monotonic. -/
theorem renderIds_collide :
    c9TwoExports.history.map (fun x => x.id) = [1000, 1000] ∧
    c9TwoExports.history.length = 2 := by
  constructor <;> rfl

lemma handleDownload_success_ids (format : RenderFormat) (bb : AudioBufferM) (mp3 : List ℕ)
    (now : ℕ) (st : AppState) (b0 : AudioBufferM) (hb0 : st.audioBuffer = some b0) :
    (handleDownload format (Except.ok bb) (fun _ => Except.ok mp3) now st).history.map
        (fun x => x.id) =
      (now :: st.history.map (fun x => x.id)).take 10 := by
  simp [handleDownload, hb0, insertHistory, List.map_take]

lemma runExports_ids_chain (b : AudioBufferM) (mp3 : List ℕ) :
    ∀ (times : List ℕ) (st : AppState) (b0 : AudioBufferM),
      st.audioBuffer = some b0 →
      List.Chain' (fun a c => a < c) times →
      (∀ x ∈ st.history.map (fun x => x.id), ∀ t ∈ times, x < t) →
      List.Chain' (fun a c => c < a) (st.history.map (fun x => x.id)) →
      List.Chain' (fun a c => c < a)
        ((runExports b mp3 times st).history.map (fun x => x.id)) := by
  intro times
  induction times with
  | nil =>
    intro st b0 hbuf hc hlt hch
    simpa [runExports] using hch
  | cons t rest ih =>
    intro st b0 hbuf hc hlt hch
    have hstep : runExports b mp3 (t :: rest) st =
        runExports b mp3 rest
          (handleDownload RenderFormat.wav (Except.ok b) (fun _ => Except.ok mp3) t st) := by
      unfold runExports
      rw [List.foldl_cons]
    rw [hstep]
    have hids := handleDownload_success_ids RenderFormat.wav b mp3 t st b0 hbuf
    have hpair : ∀ t', t' ∈ rest → t < t' := by
      have := (List.chain'_iff_pairwise.mp hc)
      intro t' ht'
      exact (List.pairwise_cons.mp this).1 t' ht'
    refine ih _ b0 ?_ ?_ ?_ ?_
    · rw [handleDownload_audioBuffer]
      exact hbuf
    · exact (List.chain'_cons'.mp hc).2
    · intro x hx t' ht'
      rw [hids] at hx
      have hx2 : x ∈ t :: st.history.map (fun x => x.id) :=
        (List.take_sublist 10 _).subset hx
      rcases List.mem_cons.mp hx2 with hxt | hxold
      · rw [hxt]
        exact hpair t' ht'
      · exact hlt x hxold t' (List.mem_cons_of_mem t ht')
    · rw [hids]
      refine List.Chain'.take ?_ 10
      rw [List.chain'_cons']
      refine ⟨?_, hch⟩
      intro y hy
      exact hlt y (List.mem_of_mem_head? hy) t (List.mem_cons_self t rest)

/-- C9 amended: a render result's id is the `Date.now()` clock reading
at creation; whenever successive exports occur at strictly increasing
clock readings, the stored ids are strictly decreasing newest-first
(so later-created results have strictly greater ids and ids are
unique); exports within the same millisecond receive equal ids. -/
theorem renderIds_monotone_amended (b : AudioBufferM) (mp3 : List ℕ) (times : List ℕ)
    (h : List.Chain' (fun a c => a < c) times) :
    List.Chain' (fun a c => c < a)
      ((runExports b mp3 times (initState b)).history.map (fun x => x.id)) ∧
    ∀ (format : RenderFormat) (bb : AudioBufferM) (m : List ℕ) (now : ℕ) (st : AppState)
      (b0 : AudioBufferM), st.audioBuffer = some b0 →
      ((handleDownload format (Except.ok bb) (fun _ => Except.ok m) now st).history.map
        (fun x => x.id)).head? = some now := by
  constructor
  · refine runExports_ids_chain b mp3 times (initState b) b rfl h ?_ ?_
    · intro x hx
      simp [initState] at hx
    · simp [initState]
  · intro format bb m now st b0 hb0
    rw [handleDownload_success_ids format bb m now st b0 hb0]
    rfl

/-- C9 amended witness: three exports at strictly increasing clock
readings yield strictly decreasing stored ids. -/
theorem renderIds_monotone_amended_witness :
    List.Chain' (fun a c => a < c) [1, 2, 3] ∧
    List.Chain' (fun a c => c < a)
      ((runExports exBuf [] [1, 2, 3] (initState exBuf)).history.map (fun x => x.id)) :=
  ⟨by norm_num [List.chain'_cons], (renderIds_monotone_amended exBuf [] [1, 2, 3]
    (by norm_num [List.chain'_cons])).1⟩

/-- C3 counterexample: the feedback slider's range is [0, 0.95] with
0.95 included — at the slider maximum the value 0.95 passes the range
input unchanged and is assigned directly to the offline feedback-gain
node and pushed to the live node, so feedback = 0.95 exactly does
reach the feedback-gain node. -/
theorem feedback_095_reaches_node :
    sliderInput 0 (19/20) (19/20) = 19/20 ∧
    (setupOfflineGraph
      { delayTime := 1/2, feedback := sliderInput 0 (19/20) (19/20), isClarityOn := false,
        voiceBoost := 1, clarity := 0 }).feedbackGainValue = 19/20 ∧
    (setFeedbackLive (sliderInput 0 (19/20) (19/20))
      (setupLiveGraph
        { delayTime := 1/2, feedback := 1/2, isClarityOn := false,
          voiceBoost := 1, clarity := 0 })).feedbackGainValue = 19/20 := by
  have hs : sliderInput 0 (19/20) (19/20) = 19/20 := by
    unfold sliderInput
    rw [min_self]
    exact max_eq_right (by norm_num)
  exact ⟨hs, hs, hs⟩

/-- C3 amended: delayTime and feedback originate from range inputs
bounded to [0.01, 1.0] and [0, 0.95]; values outside those intervals
are clamped by the input control, and in-range values — including
feedback = 0.95 exactly, which the claim wrongly excludes — are
applied unchanged to the delay and feedback-gain nodes, with no
further rejection or clamping in the assignment path. -/
theorem effect_params_bounds_amended :
    (∀ v : ℚ, 1/100 ≤ sliderInput (1/100) 1 v ∧ sliderInput (1/100) 1 v ≤ 1) ∧
    (∀ w : ℚ, 0 ≤ sliderInput 0 (19/20) w ∧ sliderInput 0 (19/20) w ≤ 19/20) ∧
    (∀ p : EffectParams, (setupOfflineGraph p).delayTimeValue = p.delayTime ∧
      (setupOfflineGraph p).feedbackGainValue = p.feedback ∧
      (setupLiveGraph p).delayTimeValue = p.delayTime ∧
      (setupLiveGraph p).feedbackGainValue = p.feedback) ∧
    (∀ (v : ℚ) (g : GraphNodes), (setDelayTimeLive v g).delayTimeValue = v ∧
      (setFeedbackLive v g).feedbackGainValue = v) := by
  refine ⟨fun v => ⟨le_max_left _ _, max_le (by norm_num) (min_le_left _ _)⟩,
    fun w => ⟨le_max_left _ _, max_le (by norm_num) (min_le_left _ _)⟩,
    fun p => ⟨rfl, rfl, rfl, rfl⟩, fun v g => ⟨rfl, rfl⟩⟩

lemma count_clear_original (s : PlaybackState) :
    activeCount { s with isPlayingOriginal := false } ≤ activeCount s := by
  rcases s with ⟨o, p, hid, pr⟩
  simp [activeCount]

lemma count_clear_processed (s : PlaybackState) :
    activeCount { s with isPlayingProcessed := false } ≤ activeCount s := by
  rcases s with ⟨o, p, hid, pr⟩
  simp [activeCount]

lemma count_clear_history (s : PlaybackState) :
    activeCount { s with playingHistoryId := none } ≤ activeCount s := by
  rcases s with ⟨o, p, hid, pr⟩
  simp [activeCount]

lemma count_clear_preview (s : PlaybackState) :
    activeCount { s with playingPreview := none } ≤ activeCount s := by
  rcases s with ⟨o, p, hid, pr⟩
  simp [activeCount]

lemma playbackStep_bounded (e : PlaybackEvent) (s : PlaybackState)
    (hs : activeCount s ≤ 1) : activeCount (playbackStep e s) ≤ 1 := by
  cases e with
  | toggleOriginal r =>
    cases r with
    | false => simpa [playbackStep] using hs
    | true =>
      by_cases ho : s.isPlayingOriginal
      · have h : playbackStep (PlaybackEvent.toggleOriginal true) s =
            { s with isPlayingOriginal := false } := by
          simp [playbackStep, ho]
        rw [h]
        exact le_trans (count_clear_original s) hs
      · have h : playbackStep (PlaybackEvent.toggleOriginal true) s =
            { initialPlayback with isPlayingOriginal := true } := by
          simp [playbackStep, ho, stopAllPlayback]
        rw [h]
        decide
  | toggleProcessed r =>
    cases r with
    | false => simpa [playbackStep] using hs
    | true =>
      by_cases hp : s.isPlayingProcessed
      · have h : playbackStep (PlaybackEvent.toggleProcessed true) s =
            { s with isPlayingProcessed := false } := by
          simp [playbackStep, hp]
        rw [h]
        exact le_trans (count_clear_processed s) hs
      · have h : playbackStep (PlaybackEvent.toggleProcessed true) s =
            { initialPlayback with isPlayingProcessed := true } := by
          simp [playbackStep, hp, stopAllPlayback]
        rw [h]
        decide
  | togglePreview k r =>
    cases r with
    | false => simpa [playbackStep] using hs
    | true =>
      by_cases hk : s.playingPreview = some k
      · have h : playbackStep (PlaybackEvent.togglePreview k true) s =
            { s with playingPreview := none } := by
          simp [playbackStep, hk]
        rw [h]
        exact le_trans (count_clear_preview s) hs
      · have h : playbackStep (PlaybackEvent.togglePreview k true) s =
            { initialPlayback with playingPreview := some k } := by
          simp [playbackStep, hk, stopAllPlayback]
        rw [h]
        simp [activeCount, initialPlayback]
  | historyPlay n ctx =>
    by_cases hn : s.playingHistoryId = some n
    · have h : playbackStep (PlaybackEvent.historyPlay n ctx) s =
          { s with playingHistoryId := none } := by
        simp [playbackStep, hn]
      rw [h]
      exact le_trans (count_clear_history s) hs
    · cases ctx with
      | false =>
        have h : playbackStep (PlaybackEvent.historyPlay n false) s = stopAllPlayback s := by
          simp [playbackStep, hn]
        rw [h]
        show activeCount initialPlayback ≤ 1
        decide
      | true =>
        have h : playbackStep (PlaybackEvent.historyPlay n true) s =
            { initialPlayback with playingHistoryId := some n } := by
          simp [playbackStep, hn, stopAllPlayback]
        rw [h]
        simp [activeCount, initialPlayback]
  | stopAll =>
    have h : playbackStep PlaybackEvent.stopAll s = initialPlayback := rfl
    rw [h]
    decide

lemma reachable_activeCount {s : PlaybackState} (h : ReachablePlayback s) :
    activeCount s ≤ 1 := by
  induction h with
  | init => decide
  | step e _ ih => exact playbackStep_bounded e _ ih

/-- C6: at most one playback source (original, processed, history
item, or preview) is active at any reachable instant, and starting any
of the four playback kinds first stops every currently active playback
of every kind (the start branches go through `stopAllPlayback`, so the
resulting state has exactly the newly started source active). -/
theorem playback_mutual_exclusion :
    (∀ s : PlaybackState, ReachablePlayback s → activeCount s ≤ 1) ∧
    (∀ s : PlaybackState, s.isPlayingOriginal = false →
      playbackStep (PlaybackEvent.toggleOriginal true) s =
        { initialPlayback with isPlayingOriginal := true }) ∧
    (∀ s : PlaybackState, s.isPlayingProcessed = false →
      playbackStep (PlaybackEvent.toggleProcessed true) s =
        { initialPlayback with isPlayingProcessed := true }) ∧
    (∀ (s : PlaybackState) (k : PreviewKind), s.playingPreview ≠ some k →
      playbackStep (PlaybackEvent.togglePreview k true) s =
        { initialPlayback with playingPreview := some k }) ∧
    (∀ (s : PlaybackState) (n : ℕ), s.playingHistoryId ≠ some n →
      playbackStep (PlaybackEvent.historyPlay n true) s =
        { initialPlayback with playingHistoryId := some n }) := by
  refine ⟨fun s h => reachable_activeCount h, ?_, ?_, ?_, ?_⟩
  · intro s h
    simp [playbackStep, h, stopAllPlayback]
  · intro s h
    simp [playbackStep, h, stopAllPlayback]
  · intro s k h
    simp [playbackStep, h, stopAllPlayback]
  · intro s n h
    simp [playbackStep, h, stopAllPlayback]

/-- C6 witness: starting processed playback while the original is
playing stops the original first, and the initial state satisfies the
invariant. -/
theorem playback_mutual_exclusion_witness :
    activeCount initialPlayback ≤ 1 ∧
    playbackStep (PlaybackEvent.toggleProcessed true)
      { isPlayingOriginal := true, isPlayingProcessed := false,
        playingHistoryId := none, playingPreview := none } =
      { initialPlayback with isPlayingProcessed := true } :=
  ⟨playback_mutual_exclusion.1 initialPlayback ReachablePlayback.init,
   playback_mutual_exclusion.2.2.1 _ rfl⟩

/-- C10: toggling noise reduction off, on, off returns the noise
filter's mode to `allpass`, and the `allpass` stage is a pass-through
(per the spec's interface contract for the host biquad engine), so the
filter stage's output buffer equals its input buffer; the offline
render's freshly built noise filter with noise reduction off is
likewise the pass-through `allpass` configuration. -/
theorem noise_toggle_allpass_roundtrip :
    (∀ c0 : FilterConfig,
      (applyClarityToggle false (applyClarityToggle true (applyClarityToggle false c0))).kind =
        FilterKind.allpass) ∧
    (∀ (lp pk : ℚ → ℚ → ℚ → List ℚ → List ℚ) (c : FilterConfig) (buf : List ℚ),
      c.kind = FilterKind.allpass → applyNoiseFilter lp pk c buf = buf) ∧
    (∀ (lp pk : ℚ → ℚ → ℚ → List ℚ → List ℚ) (c0 : FilterConfig) (buf : List ℚ),
      c0.kind = FilterKind.allpass →
      applyNoiseFilter lp pk
        (applyClarityToggle false (applyClarityToggle true (applyClarityToggle false c0)))
        buf = buf) ∧
    (∀ (lp pk : ℚ → ℚ → ℚ → List ℚ → List ℚ) (p : EffectParams) (buf : List ℚ),
      p.isClarityOn = false →
      applyNoiseFilter lp pk (setupOfflineGraph p).noiseConfig buf = buf) := by
  have htoggle : ∀ c0 : FilterConfig,
      (applyClarityToggle false (applyClarityToggle true (applyClarityToggle false c0))).kind =
        FilterKind.allpass := fun c0 => rfl
  have hpass : ∀ (lp pk : ℚ → ℚ → ℚ → List ℚ → List ℚ) (c : FilterConfig) (buf : List ℚ),
      c.kind = FilterKind.allpass → applyNoiseFilter lp pk c buf = buf := by
    intro lp pk c buf h
    unfold applyNoiseFilter
    rw [h]
  refine ⟨htoggle, hpass, fun lp pk c0 buf _ => hpass lp pk _ buf (htoggle c0), ?_⟩
  intro lp pk p buf h
  refine hpass lp pk _ buf ?_
  simp [setupOfflineGraph, h, initialNoiseFilter]

/-- C10 witness: the toggle sequence applied to the freshly created
noise filter leaves a pass-through stage. -/
theorem noise_toggle_allpass_roundtrip_witness :
    initialNoiseFilter.kind = FilterKind.allpass ∧
    applyNoiseFilter (fun _ _ _ _ => []) (fun _ _ _ _ => [])
      (applyClarityToggle false (applyClarityToggle true
        (applyClarityToggle false initialNoiseFilter)))
      [1/2, 1] = [1/2, 1] :=
  ⟨rfl, noise_toggle_allpass_roundtrip.2.2.1 _ _ initialNoiseFilter _ rfl⟩

end AudioEchoChamber
